import Mathlib

/-!
Shallow embedding of the StrandsAgents orchestration and learning control
plane (strands_agents/service): the retry loop of run_agents (app.py), the
CheckerAgent quality gate (agents/checker_agent.py), the ACE context
curator (agents/ace_agent.py), the communication bus (agent_bus.py), the
state manager (state_manager.py), the monitor error buffer (monitoring.py)
and the orchestrator strategies (orchestrator.py), together with theorems
about the behaviour the specification ascribes to them.

Machine conventions: Python lists are Lean lists, Python dicts used as
records are Lean structures, the running orchestration context (a dict
with arbitrary keys) is a function from keys to optional values, Python
floats arising from scores are Lean rationals, and effectful inputs
(timestamps, model calls, checker verdicts per attempt) are explicit
parameters.
-/

/-- Python slice l[-k:] for a non-negative k. Note the Python quirk: for
k = 0 the slice l[-0:] is l[0:], the whole list, not the empty list. -/
def pySliceLast (k : Nat) (l : List α) : List α :=
  if k = 0 then l else l.drop (l.length - k)

/-- Python slice l[s:] for an arbitrary integer start index: a negative
start counts from the end, and out-of-range starts are clamped. -/
def pySliceFrom (s : Int) (l : List α) : List α :=
  if s < 0 then l.drop (l.length - (-s).toNat) else l.drop s.toNat

/-- Whether the first list is a prefix of the second, on characters. -/
def charsPrefixOf : List Char → List Char → Bool
  | [], _ => true
  | _ :: _, [] => false
  | a :: as, b :: bs => a == b && charsPrefixOf as bs

/-- Whether pat occurs as a contiguous sublist, on characters. -/
def charsHasSub (pat : List Char) : List Char → Bool
  | [] => pat.isEmpty
  | c :: rest => charsPrefixOf pat (c :: rest) || charsHasSub pat rest

/-- Python substring membership, pat in s; the empty pattern is a member
of every string. -/
def pyIn (pat s : String) : Bool :=
  pat = "" || charsHasSub pat.data s.data

/-- Python str.lower(), character by character (ASCII-faithful). -/
def strLower (s : String) : String := String.mk (s.data.map Char.toLower)

/-- Python str.strip(): remove leading and trailing whitespace. -/
def strStrip (s : String) : String :=
  String.mk (((s.data.dropWhile Char.isWhitespace).reverse.dropWhile
    Char.isWhitespace).reverse)

/-- Python str.endswith(pat). -/
def strEndsWith (s pat : String) : Bool :=
  pat.data.length ≤ s.data.length &&
    (s.data.drop (s.data.length - pat.data.length) == pat.data)

theorem pySliceLast_of_length_le (k : Nat) (l : List α) (h : l.length ≤ k) :
    pySliceLast k l = l := by
  unfold pySliceLast
  have h0 : l.length - k = 0 := by omega
  simp [h0]

theorem pySliceLast_nil (k : Nat) : pySliceLast k ([] : List α) = [] := by
  unfold pySliceLast; simp

theorem pySliceLast_length (k : Nat) (hk : 1 ≤ k) (l : List α) :
    (pySliceLast k l).length = min k l.length := by
  unfold pySliceLast
  have : k ≠ 0 := by omega
  simp [this]
  omega

/-- Pruning to the last k elements absorbs an earlier pruning of the same
width: keeping the last k of (last k of a, then b) is keeping the last k
of (a, then b). Holds for every k, including the degenerate k = 0 where
pySliceLast is the identity. -/
theorem pySliceLast_absorb (k : Nat) (a b : List α) :
    pySliceLast k (pySliceLast k a ++ b) = pySliceLast k (a ++ b) := by
  unfold pySliceLast
  rcases Nat.eq_zero_or_pos k with hk | hk
  · simp [hk]
  · have hkne : k ≠ 0 := by omega
    simp only [if_neg hkne]
    rcases le_or_lt a.length k with hl | hl
    · have h0 : a.length - k = 0 := by omega
      simp [h0]
    · have h1 : a.drop (a.length - k) ++ b = (a ++ b).drop (a.length - k) := by
        rw [List.drop_append_eq_append_drop]
        have h2 : a.length - k - a.length = 0 := by omega
        rw [h2]
        simp
      rw [h1, List.length_drop, List.drop_drop, List.length_append]
      congr 1
      omega

/-- The last element of a list survives pruning to the last k elements. -/
theorem getLast?_pySliceLast (k : Nat) (l : List α) :
    (pySliceLast k l).getLast? = l.getLast? := by
  unfold pySliceLast
  rcases Nat.eq_zero_or_pos k with hk | hk
  · simp [hk]
  · have hkne : k ≠ 0 := by omega
    simp only [if_neg hkne]
    rcases l.eq_nil_or_concat with rfl | ⟨l', a, rfl⟩
    · simp
    · rw [List.concat_eq_append, List.drop_append_eq_append_drop]
      have h2 : (l' ++ [a]).length - k - l'.length = 0 := by
        simp
        omega
      rw [h2]
      simp [List.getLast?_concat]

/-! ## Control Loop retry cycle (app.py, run_agents)

The retry loop initialises max_loops = 3, loop_count = 0, is_good = False
and then runs: while loop_count < max_loops and not is_good, increment
loop_count, run the domain steps and the checker, and store the checker
verdict in is_good. The body of an attempt is abstracted by the function
verdict : Nat → Bool giving the checker verdict of each attempt number
(attempts are numbered from 1, matching loop_count). -/

/-- One iteration state of the retry loop: current loop_count and is_good.
Returns the final (loop_count, is_good) pair; loop_count is the reported
loops_executed / attempts-used value. -/
def runLoopAux (verdict : Nat → Bool) (maxLoops loopCount : Nat) (isGood : Bool) :
    Nat × Bool :=
  if loopCount < maxLoops ∧ isGood = false then
    runLoopAux verdict maxLoops (loopCount + 1) (verdict (loopCount + 1))
  else
    (loopCount, isGood)
termination_by maxLoops - loopCount
decreasing_by omega

/-- The whole retry cycle of run_agents, started from loop_count = 0 and
is_good = False. -/
def runRetryLoop (verdict : Nat → Bool) (maxLoops : Nat) : Nat × Bool :=
  runLoopAux verdict maxLoops 0 false

/-- max_loops as set in run_agents. -/
def maxLoopsDefault : Nat := 3

theorem runLoopAux_allFail (verdict : Nat → Bool) (m : Nat)
    (hall : ∀ n, n ≤ m → verdict n = false) :
    ∀ k i, m - i ≤ k → i ≤ m → runLoopAux verdict m i false = (m, false) := by
  intro k
  induction k with
  | zero =>
    intro i hk hi
    have him : i = m := by omega
    subst him
    rw [runLoopAux]
    simp
  | succ k ih =>
    intro i hk hi
    rcases Nat.eq_or_lt_of_le hi with him | him
    · subst him
      rw [runLoopAux]
      simp
    · rw [runLoopAux]
      have hv : verdict (i + 1) = false := hall (i + 1) (by omega)
      rw [if_pos ⟨him, rfl⟩, hv]
      exact ih (i + 1) (by omega) (by omega)

theorem runLoopAux_firstPass (verdict : Nat → Bool) (m kk : Nat)
    (hkm : kk ≤ m) (hvk : verdict kk = true)
    (hprev : ∀ j, j < kk → verdict j = false) :
    ∀ fuel i, kk - i ≤ fuel → i < kk → runLoopAux verdict m i false = (kk, true) := by
  intro fuel
  induction fuel with
  | zero =>
    intro i hfu hik
    omega
  | succ fuel ih =>
    intro i hfu hik
    rw [runLoopAux]
    rw [if_pos ⟨by omega, rfl⟩]
    rcases Nat.eq_or_lt_of_le (Nat.succ_le_of_lt hik) with hik1 | hik1
    · have hik2 : i + 1 = kk := by omega
      rw [hik2, hvk]
      rw [runLoopAux]
      simp
    · rw [hprev (i + 1) hik1]
      exact ih (i + 1) (by omega) (by omega)

/-- C1. The Control Loop retry cycle performs exactly min(k, max_retries)
attempts where k is the first attempt whose verdict passes: with an
always-failing checker it performs exactly max_retries attempts and ends
with is_good = false, and if the first passing attempt k is within the
retry ceiling, the loop stops there with is_good = true and the reported
attempts-used equal to k. -/
theorem retry_loop_attempt_count (verdict : Nat → Bool) (m : Nat) :
    ((∀ n, n ≤ m → verdict n = false) → runRetryLoop verdict m = (m, false)) ∧
    (∀ k, 1 ≤ k → k ≤ m → verdict k = true → (∀ j, j < k → verdict j = false) →
      runRetryLoop verdict m = (k, true)) := by
  constructor
  · intro hall
    exact runLoopAux_allFail verdict m hall m 0 (by omega) (by omega)
  · intro k hk1 hkm hvk hprev
    exact runLoopAux_firstPass verdict m k hkm hvk hprev k 0 (by omega) (by omega)

/-- Witness for C1: an always-failing checker yields exactly the default 3
attempts and failure; a checker first passing at attempt 2 of 3 stops
after 2 attempts with success. -/
theorem retry_loop_attempt_count_witness :
    runRetryLoop (fun _ => false) maxLoopsDefault = (3, false) ∧
    runRetryLoop (fun n => n == 2) 3 = (2, true) := by
  constructor
  · exact (retry_loop_attempt_count (fun _ => false) 3).1 (by intro n _; rfl)
  · exact (retry_loop_attempt_count (fun n => n == 2) 3).2 2 (by decide) (by decide)
      (by decide) (by decide)

/-! ## Event Bus (agent_bus.py, AgentCommunicationBus)

Messages are immutable records; publish appends the message to the
history and then, if the history exceeds max_history, keeps the Python
slice history[-max_history:]. Subscriber notification does not touch the
history and is not modeled here. -/

structure AgentMessage where
  sender : String
  topic : String
  data : String
  timestamp : String
deriving DecidableEq

/-- max_history default of AgentCommunicationBus. -/
def maxHistoryDefault : Nat := 1000

/-- The history mutation performed by publish (agent_bus.py lines 53-59). -/
def publish (maxHistory : Nat) (history : List AgentMessage) (m : AgentMessage) :
    List AgentMessage :=
  let h := history ++ [m]
  if h.length > maxHistory then pySliceLast maxHistory h else h

/-- The topic and sender filtering of get_history (agent_bus.py lines
75-84): each filter is applied only when its argument is truthy, i.e.
present and not the empty string. -/
def getHistoryFiltered (history : List AgentMessage) (topic sender : Option String) :
    List AgentMessage :=
  let ms := history
  let ms := match topic with
    | some t => if t = "" then ms else ms.filter (fun mm => mm.topic == t)
    | none => ms
  match sender with
  | some s => if s = "" then ms else ms.filter (fun mm => mm.sender == s)
  | none => ms

/-- get_history (agent_bus.py lines 75-89): after filtering, the limit is
applied only when truthy (present and nonzero), as the Python slice
messages[-limit:]. -/
def getHistory (history : List AgentMessage) (topic sender : Option String)
    (limit : Option Int) : List AgentMessage :=
  let ms := getHistoryFiltered history topic sender
  match limit with
  | some n => if n = 0 then ms else pySliceFrom (-n) ms
  | none => ms

theorem publish_eq_pySliceLast (c : Nat) (h : List AgentMessage) (m : AgentMessage) :
    publish c h m = pySliceLast c (h ++ [m]) := by
  unfold publish
  rcases le_or_lt (h ++ [m]).length c with hl | hl
  · rw [if_neg (by omega), pySliceLast_of_length_le c _ hl]
  · rw [if_pos (by omega)]

theorem publish_foldl (c : Nat) :
    ∀ (msgs a : List AgentMessage),
      List.foldl (publish c) (pySliceLast c a) msgs = pySliceLast c (a ++ msgs) := by
  intro msgs
  induction msgs with
  | nil => intro a; simp
  | cons m ms ih =>
    intro a
    rw [List.foldl_cons, publish_eq_pySliceLast, pySliceLast_absorb, ih (a ++ [m])]
    simp

theorem publish_foldl_nil (c : Nat) (msgs : List AgentMessage) :
    List.foldl (publish c) [] msgs = pySliceLast c msgs := by
  have h := publish_foldl c msgs []
  rwa [pySliceLast_nil, List.nil_append] at h

/-- C7 (amended to positive capacities). For every capacity c ≥ 1,
publishing any sequence of messages from an empty history leaves exactly
the last min(c, N) published messages in publication order; when N > c the
history is exactly the last c messages, the oldest N - c dropped,
independent of topics; and len(history) ≤ c after every publish. The
restriction to c ≥ 1 is forced by the Python slice history[-0:]: with
capacity 0 the history is never truncated. -/
theorem bus_eviction (c : Nat) (hc : 1 ≤ c) (msgs : List AgentMessage) :
    (msgs.length > c →
      List.foldl (publish c) [] msgs = msgs.drop (msgs.length - c) ∧
      (List.foldl (publish c) [] msgs).length = c) ∧
    ∀ i, ((msgs.take i).foldl (publish c) []).length ≤ c := by
  constructor
  · intro hn
    rw [publish_foldl_nil]
    constructor
    · unfold pySliceLast
      rw [if_neg (by omega)]
    · rw [pySliceLast_length c hc]
      omega
  · intro i
    rw [publish_foldl_nil, pySliceLast_length c hc]
    omega

/-- Witness for C7: capacity 1, two published messages: only the second
survives, and the bound holds after each publish. -/
theorem bus_eviction_witness :
    List.foldl (publish 1) []
      [⟨"a", "t1", "d1", "s1"⟩, ⟨"b", "t2", "d2", "s2"⟩] = [⟨"b", "t2", "d2", "s2"⟩] := by
  have h := (bus_eviction 1 (by decide)
    [⟨"a", "t1", "d1", "s1"⟩, ⟨"b", "t2", "d2", "s2"⟩]).1 (by decide)
  exact h.1.trans (by decide)

/-- Counterexample for C7 as stated: with capacity c = 0, one publish call
(N = 1 > c) leaves one message in the history, not c = 0 - the Python
slice history[-0:] keeps everything, so FIFO eviction never happens at
capacity 0. -/
theorem bus_eviction_counterexample :
    publish 0 [] ⟨"a", "t", "d", "s"⟩ = [⟨"a", "t", "d", "s"⟩] ∧
    ¬ (publish 0 [] ⟨"a", "t", "d", "s"⟩).length ≤ 0 := by
  decide

/-- C10. The Event Bus history limit is applied only when truthy: with
limit None or limit 0 get_history returns all retained messages matching
the topic/sender filters, and with a positive limit n it returns the last
min(n, number of matching messages) matching messages in retained order. -/
theorem get_history_limit (h : List AgentMessage) (topic sender : Option String) :
    getHistory h topic sender none = getHistoryFiltered h topic sender ∧
    getHistory h topic sender (some 0) = getHistoryFiltered h topic sender ∧
    ∀ n : Int, 0 < n →
      getHistory h topic sender (some n) =
        (getHistoryFiltered h topic sender).drop
          ((getHistoryFiltered h topic sender).length - n.toNat) ∧
      (getHistory h topic sender (some n)).length =
        min n.toNat (getHistoryFiltered h topic sender).length := by
  refine ⟨rfl, rfl, ?_⟩
  intro n hn
  have hne : n ≠ 0 := by omega
  have hlt : -n < 0 := by omega
  constructor
  · show (if n = 0 then _ else pySliceFrom (-n) _) = _
    rw [if_neg hne]
    unfold pySliceFrom
    rw [if_pos hlt, neg_neg]
  · show (if n = 0 then _ else pySliceFrom (-n) _).length = _
    rw [if_neg hne]
    unfold pySliceFrom
    rw [if_pos hlt, neg_neg, List.length_drop]
    have : (0 : Int) ≤ n := by omega
    omega

/-- Witness for C10: three messages, topic filter "t", limit 1 returns the
most recent matching message; limit 0 returns both matching messages. -/
theorem get_history_limit_witness :
    getHistory [⟨"a", "t", "1", "s1"⟩, ⟨"b", "u", "2", "s2"⟩, ⟨"c", "t", "3", "s3"⟩]
      (some "t") none (some 1) = [⟨"c", "t", "3", "s3"⟩] ∧
    getHistory [⟨"a", "t", "1", "s1"⟩, ⟨"b", "u", "2", "s2"⟩, ⟨"c", "t", "3", "s3"⟩]
      (some "t") none (some 0) =
      [⟨"a", "t", "1", "s1"⟩, ⟨"c", "t", "3", "s3"⟩] := by
  constructor
  · have h := (get_history_limit
      [⟨"a", "t", "1", "s1"⟩, ⟨"b", "u", "2", "s2"⟩, ⟨"c", "t", "3", "s3"⟩]
      (some "t") none).2.2 1 (by decide)
    exact h.1.trans (by decide)
  · have h := (get_history_limit
      [⟨"a", "t", "1", "s1"⟩, ⟨"b", "u", "2", "s2"⟩, ⟨"c", "t", "3", "s3"⟩]
      (some "t") none).2.1
    exact h.trans (by decide)

/-! ## State Manager (state_manager.py, AgentStateManager)

States are stored as files named f"{chat_id}_{agent_name}.json" in one
directory; the directory is modeled as the list of file names present
(contents are irrelevant to the claims). list_chats globs "*_*.json" and
takes, for each matching file, the part of the stem before the first
underscore: state_file.stem.split("_")[0]. -/

/-- The file name used by save_state and load_state. -/
def stateFileName (chatId agentName : String) : String :=
  chatId ++ "_" ++ agentName ++ ".json"

/-- save_state (state_manager.py lines 21-29): creates or overwrites the
state file; on the file-name level this adds the name if absent. -/
def saveState (files : List String) (chatId agentName : String) : List String :=
  let f := stateFileName chatId agentName
  if files.contains f then files else files ++ [f]

/-- Path.stem of a file name ending in ".json". -/
def jsonStem (f : String) : String := f.dropRight 5

/-- Whether a file name matches the glob "*_*.json". -/
def matchesStateGlob (f : String) : Bool :=
  strEndsWith f ".json" && pyIn "_" (jsonStem f)

/-- Insertion of a string into a sorted list, for modeling Python sorted(). -/
def insertSorted (a : String) : List String → List String
  | [] => [a]
  | b :: bs => if a ≤ b then a :: b :: bs else b :: insertSorted a bs

/-- Python sorted() on strings, as insertion sort. -/
def sortStrings (l : List String) : List String := l.foldr insertSorted []

/-- Removal of duplicates (Python set()); keeps the last occurrence, which
is irrelevant because the result is sorted afterwards. -/
def dedupStrings : List String → List String
  | [] => []
  | a :: as => if as.contains a then dedupStrings as else a :: dedupStrings as

/-- stem.split("_")[0]: the characters of the stem before its first
underscore (the whole stem when it has none). -/
def stemFirstSegment (stem : String) : String :=
  String.mk (stem.data.takeWhile (fun c => c != '_'))

/-- list_chats (state_manager.py lines 56-62): for each file matching
"*_*.json", take the stem split on "_" at index 0, deduplicate (Python
set) and sort. -/
def listChats (files : List String) : List String :=
  let chatIds := (files.filter matchesStateGlob).map
    (fun f => stemFirstSegment (jsonStem f))
  sortStrings (dedupStrings chatIds)

/-- C9 is violated by the code: list_chats recovers the chat id as the
part of the file stem before the FIRST underscore, so a session key
containing an underscore is truncated. Saving state for session "chat_1"
under component "main_pipeline" produces the file
"chat_1_main_pipeline.json", and list_chats then reports the session
"chat" - which has no saved state - instead of "chat_1". This contradicts
the function's own purpose (listing the chat ids that have saved state),
so the code, not the claim, is wrong. -/
theorem list_chats_underscore_bug :
    saveState [] "chat_1" "main_pipeline" = ["chat_1_main_pipeline.json"] ∧
    listChats (saveState [] "chat_1" "main_pipeline") = ["chat"] ∧
    "chat_1" ∉ listChats (saveState [] "chat_1" "main_pipeline") := by
  decide

/-! ## Monitor error buffer and the Control Loop error boundary
(monitoring.py record_error; app.py run_agents lines 377-380)

record_error appends one error record and prunes the shared buffer to the
Python slice errors[-max_metrics:]. The run_agents exception handler
records an error tagged "main_pipeline" with the chat id and the first
100 characters of the prompt as context, and then raises
HTTPException(status_code=500, detail=str(e)). -/

structure ErrorRecord where
  timestamp : String
  agent : String
  error : String
  errorType : String
  ctxChatId : String
  ctxPrompt : String
deriving DecidableEq

/-- max_metrics default of AgentMonitor. -/
def maxMetricsDefault : Nat := 10000

/-- record_error (monitoring.py lines 38-52), shared error buffer. -/
def recordError (maxMetrics : Nat) (errors : List ErrorRecord) (e : ErrorRecord) :
    List ErrorRecord :=
  let es := errors ++ [e]
  if es.length > maxMetrics then pySliceLast maxMetrics es else es

/-- A Python exception value, abstracted to str(e) and type(e).__name__. -/
structure PyException where
  message : String
  excType : String
deriving DecidableEq

/-- The FastAPI HTTPException raised by the run_agents handler. -/
structure HTTPExceptionV where
  statusCode : Nat
  detail : String
deriving DecidableEq

/-- The success payload of run_agents; its inner structure is settled by
the other claims and is irrelevant to the boundary behaviour, so only the
response text is carried. -/
structure RunResponse where
  content : String
deriving DecidableEq

/-- Python string slice s[:n]. -/
def pyTrunc (n : Nat) (s : String) : String := String.mk (s.data.take n)

/-- The exception boundary of run_agents (app.py lines 119 and 377-380):
the body either produces a result or an uncaught exception; on exception
the monitor records an error tagged "main_pipeline" and
HTTPException(500, str(e)) is raised (modeled as Except.error). -/
def runAgentsBoundary (maxMetrics : Nat) (errors : List ErrorRecord)
    (chatId prompt ts : String) (body : Except PyException RunResponse) :
    List ErrorRecord × Except HTTPExceptionV RunResponse :=
  match body with
  | .ok r => (errors, .ok r)
  | .error e =>
      (recordError maxMetrics errors
        ⟨ts, "main_pipeline", e.message, e.excType, chatId, pyTrunc 100 prompt⟩,
       .error ⟨500, e.message⟩)

theorem mem_recordError (maxMetrics : Nat) (errors : List ErrorRecord)
    (e : ErrorRecord) : e ∈ recordError maxMetrics errors e := by
  unfold recordError
  have h1 : ∀ l : List ErrorRecord, e ∈ pySliceLast maxMetrics (l ++ [e]) := by
    intro l
    have h2 : (pySliceLast maxMetrics (l ++ [e])).getLast? = some e := by
      rw [getLast?_pySliceLast, List.getLast?_concat]
    have h3 : e ∈ (pySliceLast maxMetrics (l ++ [e])).getLast? := by
      rw [h2]; rfl
    obtain ⟨hne, heq⟩ := List.mem_getLast?_eq_getLast h3
    have h4 := List.getLast_mem hne
    rwa [← heq] at h4
  rcases le_or_lt (errors ++ [e]).length maxMetrics with hl | hl
  · rw [if_neg (by omega)]
    simp
  · rw [if_pos (by omega)]
    exact h1 errors

/-- C5 (amended). On an unhandled exception the run_agents boundary does
record an Error Record tagged main_pipeline carrying the chat id - the
record survives the buffer pruning - but it then RAISES
HTTPException(500, str(e)) instead of returning a structured error
result: the outcome is Except.error, never a response shape. -/
theorem error_boundary (maxMetrics : Nat) (errors : List ErrorRecord)
    (chatId prompt ts : String) (e : PyException) :
    (∃ rec,
      rec ∈ (runAgentsBoundary maxMetrics errors chatId prompt ts (.error e)).1 ∧
      rec.agent = "main_pipeline" ∧ rec.error = e.message ∧ rec.ctxChatId = chatId) ∧
    (runAgentsBoundary maxMetrics errors chatId prompt ts (.error e)).2 =
      .error ⟨500, e.message⟩ := by
  refine ⟨⟨⟨ts, "main_pipeline", e.message, e.excType, chatId, pyTrunc 100 prompt⟩,
    mem_recordError maxMetrics errors _, rfl, rfl, rfl⟩, rfl⟩

/-! ## ACE Context Curator (agents/ace_agent.py, ACEAgent)

The context store is the list self.context_store of context items; items
are the tagged dictionaries built by curate() and optimize(), embedded as
an inductive type. Scores are Python floats embedded as rationals.
Timestamps (datetime.now().isoformat()) are explicit parameters. The
persistence of the store to disk carries no information beyond the store
itself and is not modeled. -/

/-- A pattern dictionary produced by _extract_patterns. -/
structure PatternRec where
  name : String
  description : String
  condition : String
deriving DecidableEq

/-- A context store item: one of the three tagged dictionary shapes
appended by curate() ("successful_pattern", "improvement_strategy") and
optimize() ("optimization_attempt"). -/
inductive ContextItem where
  | successfulPattern (pattern : PatternRec) (qualityScore : ℚ) (timestamp : String)
  | improvementStrategy (strategy : String) (timestamp : String)
  | optimizationAttempt (loopCount : Nat) (feedback : List String)
      (focusAreas : List String) (timestamp : String)
deriving DecidableEq

/-- The fields of reflect()'s insights dictionary that curate() reads:
quality_indicators.overall_score, patterns and suggestions. The
timestamp and performance fields are read by no modeled operation. -/
structure Insights where
  overallScore : ℚ
  patterns : List PatternRec
  suggestions : List String
deriving DecidableEq

/-- max_context_items default of ACEAgent. -/
def maxContextItemsDefault : Nat := 50

/-- The delta items built by curate (ace_agent.py lines 163-182): each
pattern becomes a successful_pattern item when the reflected overall
score is at least 0.7, and every suggestion becomes an
improvement_strategy item. -/
def curateDeltas (insights : Insights) (ts : String) : List ContextItem :=
  (if insights.overallScore ≥ 7/10 then
    insights.patterns.map (fun p => .successfulPattern p insights.overallScore ts)
  else []) ++
    insights.suggestions.map (fun s => .improvementStrategy s ts)

/-- curate (ace_agent.py lines 153-194): extend the store by the delta
items, then prune to the Python slice store[-max_context_items:] if the
maximum is exceeded; returns (new store, delta items). -/
def curate (maxItems : Nat) (store : List ContextItem) (insights : Insights)
    (ts : String) : List ContextItem × List ContextItem :=
  let deltaItems := curateDeltas insights ts
  let store1 := store ++ deltaItems
  let store2 := if store1.length > maxItems then pySliceLast maxItems store1 else store1
  (store2, deltaItems)

/-- The store after a sequence of curate calls, each given by its
insights argument and timestamp. -/
def curateFold (maxItems : Nat) (store : List ContextItem)
    (calls : List (Insights × String)) : List ContextItem :=
  calls.foldl (fun s c => (curate maxItems s c.1 c.2).1) store

theorem curate_fst_eq (maxItems : Nat) (store : List ContextItem)
    (insights : Insights) (ts : String) :
    (curate maxItems store insights ts).1 =
      pySliceLast maxItems (store ++ curateDeltas insights ts) := by
  unfold curate
  rcases le_or_lt (store ++ curateDeltas insights ts).length maxItems with hl | hl
  · simp only [if_neg (by omega : ¬ (store ++ curateDeltas insights ts).length > maxItems)]
    rw [pySliceLast_of_length_le maxItems _ hl]
  · simp only [if_pos (by omega : (store ++ curateDeltas insights ts).length > maxItems)]

theorem curate_foldl (maxItems : Nat) :
    ∀ (calls : List (Insights × String)) (a : List ContextItem),
      curateFold maxItems (pySliceLast maxItems a) calls =
        pySliceLast maxItems
          (a ++ (calls.map (fun c => curateDeltas c.1 c.2)).flatten) := by
  intro calls
  induction calls with
  | nil => intro a; simp [curateFold]
  | cons c cs ih =>
    intro a
    show curateFold maxItems
      ((curate maxItems (pySliceLast maxItems a) c.1 c.2).1) cs = _
    rw [curate_fst_eq, pySliceLast_absorb, ih (a ++ curateDeltas c.1 c.2)]
    simp

/-- C3 (amended to positive max_context_items). For any max_context_items
at least 1 (in particular the default 50), after every sequence of
curate() calls starting from a store within the limit, the store is
exactly the most recent max_context_items items of the insertion sequence
(initial store followed by all delta items in order, oldest dropped
first), and its length never exceeds max_context_items after any call.
The restriction is forced by the Python slice store[-0:]: with
max_context_items = 0 the store is never pruned. -/
theorem curate_store_invariant (maxItems : Nat) (hmax : 1 ≤ maxItems)
    (init : List ContextItem) (hinit : init.length ≤ maxItems)
    (calls : List (Insights × String)) :
    (curateFold maxItems init calls =
      (init ++ (calls.map (fun c => curateDeltas c.1 c.2)).flatten).drop
        ((init ++ (calls.map (fun c => curateDeltas c.1 c.2)).flatten).length - maxItems)) ∧
    (curateFold maxItems init calls).length ≤ maxItems ∧
    ∀ i, (curateFold maxItems init (calls.take i)).length ≤ maxItems := by
  have hfold : ∀ cs : List (Insights × String),
      curateFold maxItems init cs =
        pySliceLast maxItems (init ++ (cs.map (fun c => curateDeltas c.1 c.2)).flatten) := by
    intro cs
    have h := curate_foldl maxItems cs init
    rwa [pySliceLast_of_length_le maxItems init hinit] at h
  refine ⟨?_, ?_, ?_⟩
  · rw [hfold calls]
    unfold pySliceLast
    rw [if_neg (by omega)]
  · rw [hfold calls, pySliceLast_length maxItems hmax]
    omega
  · intro i
    rw [hfold (calls.take i), pySliceLast_length maxItems hmax]
    omega

/-- Witness for C3: max 2, three curate calls each learning one strategy;
after the last call the store is exactly the two most recent items. -/
theorem curate_store_invariant_witness :
    curateFold 2 []
      [(⟨0, [], ["s1"]⟩, "t1"), (⟨0, [], ["s2"]⟩, "t2"), (⟨0, [], ["s3"]⟩, "t3")] =
      [ContextItem.improvementStrategy "s2" "t2",
       ContextItem.improvementStrategy "s3" "t3"] ∧
    (curateFold 2 []
      [(⟨0, [], ["s1"]⟩, "t1"), (⟨0, [], ["s2"]⟩, "t2"), (⟨0, [], ["s3"]⟩, "t3")]).length
      ≤ 2 := by
  have h := curate_store_invariant 2 (by decide) [] (by decide)
    [(⟨0, [], ["s1"]⟩, "t1"), (⟨0, [], ["s2"]⟩, "t2"), (⟨0, [], ["s3"]⟩, "t3")]
  refine ⟨?_, h.2.1⟩
  rw [h.1]
  norm_num [curateDeltas]

/-- Counterexample for C3 as stated: with max_context_items = 0 a single
curate() call learning one strategy leaves one item in the store, not at
most 0: the Python slice store[-0:] keeps everything. -/
theorem curate_store_counterexample :
    (curate 0 [] ⟨0, [], ["expand the search"]⟩ "t0").1 =
      [ContextItem.improvementStrategy "expand the search" "t0"] ∧
    ¬ ((curate 0 [] ⟨0, [], ["expand the search"]⟩ "t0").1.length ≤ 0) := by
  norm_num [curate, curateDeltas, pySliceLast]

/-- The optimization instructions dictionary built by optimize
(ace_agent.py lines 337-448). -/
structure Optimization where
  timestamp : String
  loopCount : Nat
  keywordsOptimization : String
  searchOptimization : String
  responseOptimization : String
  focusAreas : List String
deriving DecidableEq

/-- optimize (ace_agent.py lines 337-448): classify the checker feedback
by substring matching over the lower-cased joined feedback text, fill the
per-concern instruction fields and the focus_areas list in source order,
append the retry-number emphasis suffix, and append an
optimization_attempt item to the context store. The context and
intermediate parameters of the source are read by no statement of its
body and are omitted. Returns (new store, optimization). -/
def optimize (store : List ContextItem) (validationFeedback : List String)
    (loopCount : Nat) (ts : String) : List ContextItem × Optimization :=
  let feedbackText := strLower (String.intercalate " " validationFeedback)
  let o : Optimization := ⟨ts, loopCount, "", "", "", []⟩
  let o := if pyIn "too short" feedbackText || pyIn "insufficient" feedbackText then
      { o with
        keywordsOptimization :=
          "Expand keyword extraction to capture more semantic variations and " ++
          "related terms. Consider synonyms, related concepts, and " ++
          "domain-specific terminology.",
        focusAreas := o.focusAreas ++ ["keyword_expansion"] }
    else o
  let o := if pyIn "search results" feedbackText || pyIn "insufficient" feedbackText then
      { o with
        searchOptimization :=
          "Broaden search criteria: 1) Use more diverse keyword combinations " ++
          "2) Reduce specificity to capture more results 3) Include partial " ++
          "matches and fuzzy search",
        focusAreas := o.focusAreas ++ ["search_coverage"] }
    else o
  let o := if pyIn "person" feedbackText || pyIn "contact" feedbackText ||
      pyIn "department" feedbackText then
      { o with
        searchOptimization :=
          "Prioritize results with complete person information: 1) Filter for " ++
          "entries with contact details 2) Prefer results with department " ++
          "information 3) Look for entries with multiple contact methods",
        focusAreas := o.focusAreas ++ ["person_selection"] }
    else o
  let o := if pyIn "structure" feedbackText || pyIn "markdown" feedbackText ||
      pyIn "mailto" feedbackText then
      { o with
        responseOptimization :=
          "Enhance response formatting and completeness: 1) Ensure proper " ++
          "markdown section headers 2) Include all required sections (contact, " ++
          "summary, tacit knowledge) 3) Add mailto link with properly formatted " ++
          "subject and body 4) Provide more detailed explanations in each section",
        focusAreas := o.focusAreas ++ ["response_formatting"] }
    else o
  let o := if pyIn "tacit" feedbackText then
      { o with
        searchOptimization :=
          "Enhance tacit knowledge integration: 1) Ensure tacit knowledge " ++
          "search is executed 2) Incorporate tacit knowledge findings into " ++
          "response 3) Highlight unique insights from tacit knowledge",
        focusAreas := o.focusAreas ++ ["tacit_knowledge"] }
    else o
  let o := if loopCount = 1 then
      { o with responseOptimization := o.responseOptimization ++
          " First retry: Focus on completing all required fields and sections." }
    else if loopCount = 2 then
      { o with responseOptimization := o.responseOptimization ++
          " Second retry: Emphasize quality and detail in all sections." }
    else if loopCount ≥ 3 then
      { o with responseOptimization := o.responseOptimization ++
          " Final retry: Maximize all quality indicators and ensure comprehensive coverage." }
    else o
  (store ++ [.optimizationAttempt loopCount validationFeedback o.focusAreas ts], o)

/-- C4 (amended). The store mutators of the Context Curator are curate()
and optimize(): curate() appends its delta items and then prunes from the
front - the new store is a suffix of the old store followed by the deltas,
so existing items are never reordered - while optimize() appends exactly
one optimization_attempt item (and never prunes). The read-only
operations (generate, reflect, get_context_instructions, get_statistics)
assign nothing to the store in the source and are embedded without a
store transition. -/
theorem curator_store_mutators (maxItems : Nat) (store : List ContextItem)
    (insights : Insights) (fb : List String) (lc : Nat) (ts ts2 : String) :
    (∃ k, (curate maxItems store insights ts).1 =
      (store ++ curateDeltas insights ts).drop k) ∧
    (optimize store fb lc ts2).1 =
      store ++ [ContextItem.optimizationAttempt lc fb
        ((optimize store fb lc ts2).2.focusAreas) ts2] := by
  constructor
  · rw [curate_fst_eq]
    unfold pySliceLast
    rcases Nat.eq_zero_or_pos maxItems with hm | hm
    · exact ⟨0, by simp [hm]⟩
    · exact ⟨(store ++ curateDeltas insights ts).length - maxItems,
        by rw [if_neg (by omega)]⟩
  · rfl

/-- Counterexample for C4 as stated: optimize() is an operation other
than curate() and clear, yet it changes the store contents - on an empty
store it leaves one optimization_attempt item behind. -/
theorem curator_store_mutators_counterexample :
    (optimize [] [] 1 "t1").1 = [ContextItem.optimizationAttempt 1 [] [] "t1"] ∧
    (optimize [] [] 1 "t1").1 ≠ [] := by
  constructor
  · rfl
  · intro h
    simp [optimize] at h

theorem mem_of_getLast?_eq_some {l : List α} {a : α} (h : l.getLast? = some a) :
    a ∈ l := by
  have h3 : a ∈ l.getLast? := by rw [h]; rfl
  obtain ⟨hne, heq⟩ := List.mem_getLast?_eq_getLast h3
  have h4 := List.getLast_mem hne
  rwa [← heq] at h4

/-- Rounding half to even on rationals; agrees with Python float
formatting on the dyadic scores produced by the checker and curator. -/
def roundHalfEven (q : ℚ) : ℤ :=
  let f := ⌊q⌋
  let r := q - f
  if r < 1/2 then f
  else if 1/2 < r then f + 1
  else if f % 2 = 0 then f else f + 1

/-- Two-digit decimal rendering of a natural number below 100. -/
def natTwoDigits (a : Nat) : String := (if a < 10 then "0" else "") ++ toString a

/-- The Python format f"{q:.2f}". -/
def fmt2 (q : ℚ) : String :=
  let n := roundHalfEven (q * 100)
  (if n < 0 then "-" else "") ++ toString (n.natAbs / 100) ++ "." ++
    natTwoDigits (n.natAbs % 100)

/-- item.get("type") == "successful_pattern". -/
def itemIsPattern : ContextItem → Bool
  | .successfulPattern .. => true
  | _ => false

/-- item.get("type") == "improvement_strategy". -/
def itemIsStrategy : ContextItem → Bool
  | .improvementStrategy .. => true
  | _ => false

/-- The pattern line rendered by get_context_instructions:
f"- [{score:.2f}] {pattern.get('description', 'N/A')}". The second branch
embeds the source's .get defaults and is unreachable within the filtered
pattern list. -/
def renderPatternLine : ContextItem → String
  | .successfulPattern p score _ => "- [" ++ fmt2 score ++ "] " ++ p.description
  | _ => "- [" ++ fmt2 0 ++ "] N/A"

/-- The strategy line rendered by get_context_instructions:
f"- {item.get('strategy', 'N/A')}". -/
def renderStrategyLine : ContextItem → String
  | .improvementStrategy s _ => "- " ++ s
  | _ => "- N/A"

/-- The pattern items rendered by get_context_instructions (ace_agent.py
lines 213-216): the successful_pattern items among the LAST 20 store
items, and of those the last 10. -/
def patternsSelected (store : List ContextItem) : List ContextItem :=
  pySliceLast 10 ((pySliceLast 20 store).filter itemIsPattern)

/-- The strategy items rendered by get_context_instructions (ace_agent.py
lines 226-229): the improvement_strategy items among the LAST 15 store
items, and of those the last 5. -/
def strategiesSelected (store : List ContextItem) : List ContextItem :=
  pySliceLast 5 ((pySliceLast 15 store).filter itemIsStrategy)

/-- The instructions list built by get_context_instructions (ace_agent.py
lines 210-234): header, then the pattern section when any pattern was
selected, then the strategy section when any strategy was selected. -/
def instructionLines (store : List ContextItem) : List String :=
  ["# ACE Context Engineering Instructions"]
    ++ (if (patternsSelected store).isEmpty then [] else
        "\n## Successful Patterns to Apply:" ::
          (patternsSelected store).map renderPatternLine)
    ++ (if (strategiesSelected store).isEmpty then [] else
        "\n## Improvement Strategies:" ::
          (strategiesSelected store).map renderStrategyLine)

/-- get_context_instructions (ace_agent.py lines 196-236): empty string on
an empty store, otherwise the newline join of the instruction lines. The
query and profile parameters of the source are read by no statement of
its body and are omitted. -/
def getContextInstructions (store : List ContextItem) : String :=
  if store.isEmpty then "" else String.intercalate "\n" (instructionLines store)

/-- C6 (amended). get_context_instructions renders the most recent up to
10 SuccessfulPattern items among the LAST 20 items of the store (not of
the whole store) and the most recent up to 5 ImprovementStrategy items
among the LAST 15; whenever a SuccessfulPattern occurs among the last 20
items, the rendered block includes the line of the most recent one. -/
theorem context_instructions_recency (store : List ContextItem) (p : ContextItem)
    (hp : ((pySliceLast 20 store).filter itemIsPattern).getLast? = some p) :
    renderPatternLine p ∈ instructionLines store ∧
    (patternsSelected store).length ≤ 10 ∧
    (strategiesSelected store).length ≤ 5 ∧
    getContextInstructions store = String.intercalate "\n" (instructionLines store) := by
  have hmem : p ∈ patternsSelected store := by
    apply mem_of_getLast?_eq_some
    rw [patternsSelected, getLast?_pySliceLast, hp]
  have hne : patternsSelected store ≠ [] := List.ne_nil_of_mem hmem
  refine ⟨?_, ?_, ?_, ?_⟩
  · rw [instructionLines, if_neg (by simp [hne])]
    have : renderPatternLine p ∈ (patternsSelected store).map renderPatternLine :=
      List.mem_map_of_mem renderPatternLine hmem
    simp only [List.mem_append, List.mem_cons]
    tauto
  · rw [patternsSelected, pySliceLast_length 10 (by omega)]
    omega
  · rw [strategiesSelected, pySliceLast_length 5 (by omega)]
    omega
  · have hstore : store ≠ [] := by
      intro h0
      rw [h0] at hp
      simp [pySliceLast_nil] at hp
    rw [getContextInstructions, if_neg (by simp [hstore])]

/-- Witness for C6: a store holding exactly one successful pattern; its
rendered line is in the instruction block. -/
theorem context_instructions_recency_witness :
    renderPatternLine (ContextItem.successfulPattern ⟨"p1", "d1", "c1"⟩ (4/5) "t1")
      ∈ instructionLines
        [ContextItem.successfulPattern ⟨"p1", "d1", "c1"⟩ (4/5) "t1"] :=
  (context_instructions_recency
    [ContextItem.successfulPattern ⟨"p1", "d1", "c1"⟩ (4/5) "t1"]
    (ContextItem.successfulPattern ⟨"p1", "d1", "c1"⟩ (4/5) "t1") rfl).1

/-- A store whose single successful pattern is older than its last 20
items: one pattern followed by 20 strategies. -/
def c6Store : List ContextItem :=
  ContextItem.successfulPattern ⟨"p1", "important pattern", "c1"⟩ 1 "t0" ::
    List.replicate 20 (ContextItem.improvementStrategy "s" "t")

/-- Counterexample for C6 as stated: c6Store contains a SuccessfulPattern
item, yet get_context_instructions selects no pattern at all - the
rendered block has no pattern section, because only the last 20 items are
scanned. -/
theorem context_instructions_counterexample :
    (c6Store.filter itemIsPattern).length = 1 ∧
    patternsSelected c6Store = [] ∧
    instructionLines c6Store =
      ["# ACE Context Engineering Instructions", "\n## Improvement Strategies:",
       "- s", "- s", "- s", "- s", "- s"] :=
  ⟨rfl, rfl, rfl⟩

/-! ## Quality Checker (agents/checker_agent.py, CheckerAgent)

The rules dictionary is embedded as a structure with the keys of
_default_rules; intermediate.selected_person is a dictionary read
defensively with .get, so the person and its fields are optional values
(a missing key or empty value is falsy). check builds the violation
feedback list and the score component list in one pass over the rules;
the details dictionary is read by no claim and is not modeled. -/

/-- The contact dictionary; the "type" key is named ctype here. -/
structure PersonContact where
  ctype : Option String
  value : Option String
deriving DecidableEq

structure SelectedPerson where
  name : Option String
  department : Option String
  contact : Option PersonContact
deriving DecidableEq

/-- The intermediate results read by check: selected_person (none models
a falsy/empty person dictionary), search_summary and tacit_knowledge
(entries abstracted to title/snippet pairs; only lengths are read). -/
structure IntermediateInfo where
  selectedPerson : Option SelectedPerson
  searchSummary : List (String × String)
  tacitKnowledge : List (String × String)
deriving DecidableEq

structure CheckerRules where
  minResponseLength : Nat
  requirePerson : Bool
  requireContact : Bool
  requireDepartment : Bool
  minSearchResults : Nat
  requireTacitKnowledge : Bool
  requireMailtoLink : Bool
  qualityThreshold : ℚ
deriving DecidableEq

/-- _default_rules (checker_agent.py lines 62-73). -/
def defaultRules : CheckerRules := ⟨50, true, true, true, 1, false, true, 6/10⟩

/-- Python falsiness of an optional string: missing or empty. -/
def optStrFalsy : Option String → Bool
  | none => true
  | some s => s == ""

/-- The rule evaluation pass of check (checker_agent.py lines 94-173):
the violation feedback strings and the score components, in rule order. -/
def checkComponents (rules : CheckerRules) (response : String)
    (inter : IntermediateInfo) : List String × List ℚ :=
  let responseLength := (strStrip response).length
  let r1 : List String × List ℚ :=
    if responseLength < rules.minResponseLength then
      (["Response too short (" ++ toString responseLength ++ " chars, minimum " ++
        toString rules.minResponseLength ++ ")"], [0])
    else ([], [1])
  let r2 : List String × List ℚ :=
    if rules.requirePerson then
      if (match inter.selectedPerson with
          | none => true
          | some p => optStrFalsy p.name) then
        (["No person selected or person name missing"], [0])
      else ([], [1])
    else ([], [])
  let r3 : List String × List ℚ :=
    if rules.requireContact then
      if (match inter.selectedPerson with
          | none => true
          | some p =>
            match p.contact with
            | none => true
            | some c => optStrFalsy c.value) then
        (["Contact information missing or incomplete"], [0])
      else ([], [1])
    else ([], [])
  let r4 : List String × List ℚ :=
    if rules.requireDepartment then
      if (match inter.selectedPerson with
          | none => true
          | some p => optStrFalsy p.department) then
        (["Department information missing"], [1/2])
      else ([], [1])
    else ([], [])
  let r5 : List String × List ℚ :=
    if inter.searchSummary.length < rules.minSearchResults then
      (["Insufficient search results (" ++ toString inter.searchSummary.length ++
        ", minimum " ++ toString rules.minSearchResults ++ ")"], [1/2])
    else ([], [1])
  let r6 : List String × List ℚ :=
    if rules.requireTacitKnowledge then
      if inter.tacitKnowledge.length = 0 then
        (["Tacit knowledge missing"], [0])
      else ([], [1])
    else ([], [])
  let r7 : List String × List ℚ :=
    if rules.requireMailtoLink then
      if !(pyIn "mailto:" (strLower response)) then
        (["Email link (mailto:) not found in response"], [1/2])
      else ([], [1])
    else ([], [])
  let r8 : List String × List ℚ :=
    if !(pyIn "##" response || pyIn "###" response) then
      (["Response lacks proper markdown structure"], [1/2])
    else ([], [1])
  (r1.1 ++ r2.1 ++ r3.1 ++ r4.1 ++ r5.1 ++ r6.1 ++ r7.1 ++ r8.1,
   r1.2 ++ r2.2 ++ r3.2 ++ r4.2 ++ r5.2 ++ r6.2 ++ r7.2 ++ r8.2)

/-- The verdict returned by check; the details dictionary is not modeled. -/
structure ValidationResult where
  isGood : Bool
  score : ℚ
  feedback : List String
deriving DecidableEq

/-- The positive feedback message substituted when all checks pass. -/
def successFeedback : String := "Response meets all quality criteria"

/-- check (checker_agent.py lines 75-199): overall score is the mean of
the score components, is_good requires the threshold AND an empty
violation list, and the returned feedback replaces an empty violation
list by the success message (or prepends a score notice when the score
meets the threshold despite violations). The prompt and profile
parameters are read by no statement of the source body. -/
def check (rules : CheckerRules) (response : String) (inter : IntermediateInfo)
    (prompt : String) (profile : List (String × Option String)) : ValidationResult :=
  let vc := checkComponents rules response inter
  let overallScore := if vc.2.isEmpty then (0 : ℚ) else vc.2.sum / vc.2.length
  let isGood : Bool :=
    if overallScore ≥ rules.qualityThreshold ∧ vc.1 = [] then true else false
  let feedback :=
    if isGood then [successFeedback]
    else if overallScore ≥ rules.qualityThreshold then
      ("Score " ++ fmt2 overallScore ++ " meets threshold but has minor issues") ::
        vc.1
    else vc.1
  ⟨isGood, overallScore, feedback⟩


/-- Definitional characterization of check's is_good field. -/
theorem check_isGood_eq (rules : CheckerRules) (response : String)
    (inter : IntermediateInfo) (prompt : String)
    (profile : List (String × Option String)) :
    (check rules response inter prompt profile).isGood =
      if (if (checkComponents rules response inter).2.isEmpty then (0 : ℚ)
          else (checkComponents rules response inter).2.sum /
            (checkComponents rules response inter).2.length) ≥ rules.qualityThreshold ∧
          (checkComponents rules response inter).1 = []
      then true else false := rfl

theorem check_feedback_eq (rules : CheckerRules) (response : String)
    (inter : IntermediateInfo) (prompt : String)
    (profile : List (String × Option String)) :
    (check rules response inter prompt profile).feedback =
      if (check rules response inter prompt profile).isGood then [successFeedback]
      else if (if (checkComponents rules response inter).2.isEmpty then (0 : ℚ)
          else (checkComponents rules response inter).2.sum /
            (checkComponents rules response inter).2.length) ≥ rules.qualityThreshold then
        ("Score " ++ fmt2 (if (checkComponents rules response inter).2.isEmpty then (0 : ℚ)
          else (checkComponents rules response inter).2.sum /
            (checkComponents rules response inter).2.length) ++
          " meets threshold but has minor issues") :: (checkComponents rules response inter).1
      else (checkComponents rules response inter).1 := rfl

theorem checker_strictness (rules : CheckerRules) (response : String)
    (inter : IntermediateInfo) (prompt : String)
    (profile : List (String × Option String)) :
    ((checkComponents rules response inter).1 ≠ [] →
      (check rules response inter prompt profile).isGood = false ∧
      ∀ f ∈ (checkComponents rules response inter).1,
        f ∈ (check rules response inter prompt profile).feedback) ∧
    ((check rules response inter prompt profile).isGood = true →
      (check rules response inter prompt profile).feedback = [successFeedback]) ∧
    ((check rules response inter prompt profile).isGood = true ↔
      (if (checkComponents rules response inter).2.isEmpty then (0 : ℚ)
        else (checkComponents rules response inter).2.sum /
          (checkComponents rules response inter).2.length) ≥ rules.qualityThreshold ∧
      (checkComponents rules response inter).1 = []) := by
  have hf := check_feedback_eq rules response inter prompt profile
  rw [check_isGood_eq rules response inter prompt profile] at hf ⊢
  rw [hf]
  by_cases hC :
      (if (checkComponents rules response inter).2.isEmpty then (0 : ℚ)
        else (checkComponents rules response inter).2.sum /
          (checkComponents rules response inter).2.length) ≥ rules.qualityThreshold ∧
      (checkComponents rules response inter).1 = []
  · rw [if_pos hC]
    exact ⟨fun hne => absurd hC.2 hne, fun _ => by rw [if_pos rfl],
      iff_of_true rfl hC⟩
  · rw [if_neg hC]
    refine ⟨?_, by simp, iff_of_false (by simp) hC⟩
    intro hne
    refine ⟨rfl, ?_⟩
    intro f hfmem
    simp only [Bool.false_eq_true, if_false]
    by_cases hth :
        (if (checkComponents rules response inter).2.isEmpty then (0 : ℚ)
          else (checkComponents rules response inter).2.sum /
            (checkComponents rules response inter).2.length) ≥ rules.qualityThreshold
    · rw [if_pos hth]
      exact List.mem_cons_of_mem _ hfmem
    · rw [if_neg hth]
      exact hfmem

theorem checker_strictness_witness :
    (checkComponents defaultRules "" ⟨none, [], []⟩).1 ≠ [] ∧
    (check defaultRules "" ⟨none, [], []⟩ "" []).isGood = false := by
  have hne : (checkComponents defaultRules "" ⟨none, [], []⟩).1 ≠ [] := by decide
  exact ⟨hne, ((checker_strictness defaultRules "" ⟨none, [], []⟩ "" []).1 hne).1⟩

def goodPerson : SelectedPerson :=
  ⟨some "Alice Tanaka", some "Engineering", some ⟨some "email", some "alice@example.com"⟩⟩

def goodInter : IntermediateInfo := ⟨some goodPerson, [("Doc", "snippet")], []⟩

def goodResponse : String :=
  "## Contact\nPlease reach Alice Tanaka via [email](mailto:alice@example.com) for onboarding assistance."

theorem checker_strictness_counterexample :
    (check defaultRules goodResponse goodInter "" []).isGood = true ∧
    (check defaultRules goodResponse goodInter "" []).feedback = [successFeedback] := by
  have hcc : checkComponents defaultRules goodResponse goodInter =
      ([], [1, 1, 1, 1, 1, 1, 1]) := by decide
  have hg : (check defaultRules goodResponse goodInter "" []).isGood = true := by
    rw [check_isGood_eq, hcc]
    norm_num [defaultRules]
  have hfb : (check defaultRules goodResponse goodInter "" []).feedback =
      [successFeedback] := by
    rw [check_feedback_eq, hg, if_pos rfl]
  exact ⟨hg, hfb⟩

/-- Counterexample for C5 as stated: with the body failing on
ValueError("boom"), the boundary's outcome is a raised
HTTPException(500, "boom") - an Except.error, not a returned response
shape carrying an error field and the session identifier. The error
record is correctly appended. -/
theorem error_boundary_counterexample :
    (runAgentsBoundary 10000 [] "chat-1" "hello" "t0"
      (.error ⟨"boom", "ValueError"⟩)).2 = .error ⟨500, "boom"⟩ ∧
    (runAgentsBoundary 10000 [] "chat-1" "hello" "t0"
      (.error ⟨"boom", "ValueError"⟩)).1 =
      [⟨"t0", "main_pipeline", "boom", "ValueError", "chat-1", "hello"⟩] :=
  ⟨rfl, by decide⟩

/-! ## Orchestrator (orchestrator.py, AgentOrchestrator)

The running context is a Python dict with arbitrary keys, embedded as a
function from string keys to optional values; Python dict equality is
key-wise and is function equality here. Only the "errors" key holds
structured values (the list of {"agent", "error"} entries appended on
step failure); an entry is embedded as a name/message pair. An agent is
its name, its callable (success returns the result dict, failure the
message of the raised exception) and its condition. The strategies
modeled here never call the condition (only execute_conditional does,
and no claim concerns it); they observe it only through
condition.__name__ in _has_dependencies (orchestrator.py line 154), so a
condition is embedded by what that test can see: the default installed
by add_agent (lambda ctx: True), a user-supplied lambda, or a
user-supplied named function. -/

inductive Val where
  | s (v : String)
  | errList (entries : List (String × String))
deriving DecidableEq

def Ctx : Type := String → Option Val

/-- A fresh empty dict. -/
def emptyCtx : Ctx := fun _ => none

/-- d[k] = v. -/
def ctxSet (c : Ctx) (k : String) (v : Val) : Ctx :=
  fun q => if q = k then some v else c q

/-- a.update(b): keys present in b win. -/
def ctxUpdate (a b : Ctx) : Ctx :=
  fun q => match b q with
    | some v => some v
    | none => a q

/-- result.get("errors", []). -/
def ctxErrors (c : Ctx) : List (String × String) :=
  match c "errors" with
  | some (.errList l) => l
  | _ => []

/-- result["errors"] = result.get("errors", []) followed by
result["errors"].append({"agent": name, "error": str(e)}). -/
def appendCtxError (c : Ctx) (agentName err : String) : Ctx :=
  ctxSet c "errors" (.errList (ctxErrors c ++ [(agentName, err)]))

/-- The condition attached to a step by add_agent, as far as the modeled
strategies can observe it. Both the default condition and a user lambda
have __name__ == "<lambda>"; a named function does not. -/
inductive StepCondition where
  | defaultCond
  | userLambda
  | namedFun (nm : String)
deriving DecidableEq

/-- _has_dependencies (orchestrator.py lines 151-154):
condition.__name__ != "<lambda>", i.e. true exactly for named-function
conditions - a non-default condition supplied as a lambda counts as
having no dependencies. -/
def hasDependencies : StepCondition → Bool
  | .namedFun _ => true
  | _ => false

theorem hasDependencies_iff_namedFun (c : StepCondition) :
    hasDependencies c = true ↔ ∃ nm, c = StepCondition.namedFun nm := by
  cases c <;> simp [hasDependencies]

structure AgentSpec where
  name : String
  run : Ctx → Except String Ctx
  condition : StepCondition

/-- The per-agent body shared by execute_sequential (lines 61-72) and the
sequential branch of execute_hybrid (lines 132-140): merge the agent's
result into the running context, or append an error entry. -/
def seqStep (result : Ctx) (a : AgentSpec) : Ctx :=
  match a.run result with
  | .ok r => ctxUpdate result r
  | .error e => appendCtxError result a.name e

/-- execute_sequential (orchestrator.py lines 57-74). -/
def executeSequential (agents : List AgentSpec) (context : Ctx) : Ctx :=
  agents.foldl seqStep context

/-- The result-merge loop shared by execute_parallel (lines 87-94) and
_run_parallel_batch (lines 163-170). -/
def mergeResults (merged : Ctx) (results : List (String × Except String Ctx)) : Ctx :=
  results.foldl (fun m pr =>
    match pr.2 with
    | .ok r => ctxUpdate m r
    | .error e => appendCtxError m pr.1 e) merged

/-- execute_parallel (orchestrator.py lines 76-96): all agents run
against the initial context; results merge into a copy of it in list
order. -/
def executeParallel (agents : List AgentSpec) (context : Ctx) : Ctx :=
  mergeResults context (agents.map (fun a => (a.name, a.run context)))

/-- _run_parallel_batch (orchestrator.py lines 156-172): all agents of
the batch run against the given context; results merge into a fresh
EMPTY dict. -/
def runParallelBatch (agents : List AgentSpec) (context : Ctx) : Ctx :=
  mergeResults emptyCtx (agents.map (fun a => (a.name, a.run context)))

/-- One loop iteration of execute_hybrid (orchestrator.py lines 122-142):
an agent with dependencies first flushes any pending parallel batch into
the running context, then runs sequentially; other agents are appended to
the pending batch. -/
def hybridStep (st : Ctx × List AgentSpec) (a : AgentSpec) : Ctx × List AgentSpec :=
  if hasDependencies a.condition then
    let result := if st.2.isEmpty then st.1
      else ctxUpdate st.1 (runParallelBatch st.2 st.1)
    (seqStep result a, [])
  else (st.1, st.2 ++ [a])

/-- execute_hybrid (orchestrator.py lines 117-149): run the loop, then
flush any remaining parallel batch. -/
def executeHybrid (agents : List AgentSpec) (context : Ctx) : Ctx :=
  let fin := agents.foldl hybridStep (context, [])
  if fin.2.isEmpty then fin.1 else ctxUpdate fin.1 (runParallelBatch fin.2 fin.1)

theorem ctxUpdate_empty (c : Ctx) : ctxUpdate c emptyCtx = c := rfl

theorem ctxUpdate_set (a m : Ctx) (k : String) (v : Val) :
    ctxUpdate a (ctxSet m k v) = ctxSet (ctxUpdate a m) k v := by
  funext q
  unfold ctxUpdate ctxSet
  by_cases h : q = k <;> simp [h]

theorem ctxUpdate_assoc (a b c : Ctx) :
    ctxUpdate (ctxUpdate a b) c = ctxUpdate a (ctxUpdate b c) := by
  funext q
  unfold ctxUpdate
  cases hc : c q <;> cases hb : b q <;> simp [hc, hb]

theorem ctxErrors_update_of_none (a m : Ctx) (h : a "errors" = none) :
    ctxErrors (ctxUpdate a m) = ctxErrors m := by
  unfold ctxErrors ctxUpdate
  cases hm : m "errors" <;> simp [hm, h]

theorem appendCtxError_update (a m : Ctx) (n e : String) (h : a "errors" = none) :
    appendCtxError (ctxUpdate a m) n e = ctxUpdate a (appendCtxError m n e) := by
  unfold appendCtxError
  rw [ctxErrors_update_of_none a m h, ctxUpdate_set]

/-- Merging results into an updated dict equals updating by the merge
into the raw dict, provided the base holds no errors entry. -/
theorem mergeResults_update (a : Ctx) (h : a "errors" = none) :
    ∀ (results : List (String × Except String Ctx)) (m : Ctx),
      mergeResults (ctxUpdate a m) results = ctxUpdate a (mergeResults m results) := by
  intro results
  induction results with
  | nil => intro m; rfl
  | cons r rs ih =>
    intro m
    rcases r with ⟨n, res⟩
    cases res with
    | ok rr =>
      show mergeResults (ctxUpdate (ctxUpdate a m) rr) rs = _
      rw [ctxUpdate_assoc, ih (ctxUpdate m rr)]
      rfl
    | error e =>
      show mergeResults (appendCtxError (ctxUpdate a m) n e) rs = _
      rw [appendCtxError_update a m n e h, ih (appendCtxError m n e)]
      rfl

theorem hybridFold_nondep :
    ∀ (ags : List AgentSpec), (∀ a ∈ ags, hasDependencies a.condition = false) →
      ∀ (c : Ctx) (pend : List AgentSpec),
        ags.foldl hybridStep (c, pend) = (c, pend ++ ags) := by
  intro ags
  induction ags with
  | nil => intro _ c pend; simp
  | cons a as ih =>
    intro h c pend
    have ha : hasDependencies a.condition = false := h a (List.mem_cons_self a as)
    show as.foldl hybridStep (hybridStep (c, pend) a) = _
    rw [show hybridStep (c, pend) a = (c, pend ++ [a]) by simp [hybridStep, ha]]
    rw [ih (fun x hx => h x (List.mem_cons_of_mem a hx)) c (pend ++ [a])]
    simp

theorem executeHybrid_cons_dep (a : AgentSpec) (as : List AgentSpec) (c : Ctx)
    (ha : hasDependencies a.condition = true) :
    executeHybrid (a :: as) c = executeHybrid as (seqStep c a) := by
  have hstep : hybridStep (c, []) a = (seqStep c a, []) := by
    simp [hybridStep, ha]
  unfold executeHybrid
  simp only []
  rw [List.foldl_cons, hstep]

theorem executeHybrid_all_dep :
    ∀ (agents : List AgentSpec), (∀ a ∈ agents, hasDependencies a.condition = true) →
      ∀ c, executeHybrid agents c = executeSequential agents c := by
  intro agents
  induction agents with
  | nil => intro _ c; rfl
  | cons a as ih =>
    intro h c
    have ha := h a (List.mem_cons_self a as)
    rw [executeHybrid_cons_dep a as c ha,
      ih (fun x hx => h x (List.mem_cons_of_mem a hx)) (seqStep c a)]
    rfl

/-- C8 (amended). execute_hybrid decides sequencing only by
_has_dependencies, i.e. by condition.__name__: when no step's predicate
is a named function (all default predicates, or any mix of defaults and
user lambdas) and the initial context carries no errors entry, Hybrid
equals Parallel; when every step's predicate is a named function, Hybrid
equals Sequential exactly. Outside these hypotheses both equivalences
fail in the code: a pre-existing errors entry is overwritten by the
batch flush, and a NON-DEFAULT predicate supplied as a lambda is batched
like the default, making Hybrid depart from Sequential - so the claim's
all-non-default direction is false for lambda predicates. -/
theorem hybrid_equivalence (agents : List AgentSpec) (context : Ctx) :
    ((∀ a ∈ agents, hasDependencies a.condition = false) → context "errors" = none →
      executeHybrid agents context = executeParallel agents context) ∧
    ((∀ a ∈ agents, hasDependencies a.condition = true) →
      executeHybrid agents context = executeSequential agents context) := by
  constructor
  · intro hall herr
    unfold executeHybrid
    rw [hybridFold_nondep agents hall context []]
    simp only [List.nil_append]
    have hbatch : ctxUpdate context (runParallelBatch agents context) =
        executeParallel agents context := by
      unfold runParallelBatch executeParallel
      rw [← mergeResults_update context herr _ emptyCtx, ctxUpdate_empty]
    cases agents with
    | nil => rfl
    | cons a as =>
      simp only [List.isEmpty_cons, if_false]
      exact hbatch
  · intro hall
    exact executeHybrid_all_dep agents hall context

/-- An agent with the default condition that fails with "boom". -/
def c8FailAgent : AgentSpec := ⟨"boom_agent", fun _ => .error "boom", .defaultCond⟩

/-- An agent with the default condition that writes key "x". -/
def c8OkAgent : AgentSpec :=
  ⟨"ok_agent", fun _ => .ok (fun q => if q = "x" then some (.s "1") else none),
   .defaultCond⟩

/-- An agent whose non-default condition is a named function; it writes
key "y". -/
def c8DepAgent : AgentSpec :=
  ⟨"dep_agent", fun _ => .ok (fun q => if q = "y" then some (.s "2") else none),
   .namedFun "check_ready"⟩

/-- An agent whose non-default condition is a LAMBDA; it writes key "x". -/
def c8WriterAgent : AgentSpec :=
  ⟨"writer", fun _ => .ok (fun q => if q = "x" then some (.s "1") else none),
   .userLambda⟩

/-- An agent whose non-default condition is a LAMBDA; it copies the
running context's "x" value (or "missing") into key "y". -/
def c8ReaderAgent : AgentSpec :=
  ⟨"reader", fun c => .ok (fun q =>
      if q = "y" then some (match c "x" with | some v => v | none => .s "missing")
      else none),
   .userLambda⟩

/-- An initial context that already carries one errors entry. -/
def c8Ctx : Ctx :=
  fun q => if q = "errors" then some (.errList [("earlier", "old")]) else none

/-- Witness for C8: a one-agent default-predicate list on an empty
context where Hybrid equals Parallel, and a one-agent list whose
predicate is a named function, where Hybrid equals Sequential. -/
theorem hybrid_equivalence_witness :
    executeHybrid [c8OkAgent] emptyCtx = executeParallel [c8OkAgent] emptyCtx ∧
    executeHybrid [c8DepAgent] emptyCtx = executeSequential [c8DepAgent] emptyCtx :=
  ⟨(hybrid_equivalence [c8OkAgent] emptyCtx).1 (by decide) rfl,
   (hybrid_equivalence [c8DepAgent] emptyCtx).2 (by decide)⟩

/-- Counterexample for C8 as stated, in both directions. Parallel
direction: one failing default-predicate agent on an initial context
already holding an errors entry - Parallel appends the new error entry
to the existing list, Hybrid's batch flush overwrites it. Sequential
direction: two steps whose NON-DEFAULT predicates are lambdas, the
second reading the first's output - _has_dependencies sees "<lambda>"
and batches both, so under Hybrid the reader observes only the pre-batch
context and the final contexts differ at key "y" ("missing" versus "1");
no error entries are involved, so the difference is not an
error-ordering artifact. -/
theorem hybrid_equivalence_counterexample :
    (executeHybrid [c8FailAgent] c8Ctx) "errors" =
      some (.errList [("boom_agent", "boom")]) ∧
    (executeParallel [c8FailAgent] c8Ctx) "errors" =
      some (.errList [("earlier", "old"), ("boom_agent", "boom")]) ∧
    executeHybrid [c8FailAgent] c8Ctx ≠ executeParallel [c8FailAgent] c8Ctx ∧
    (executeHybrid [c8WriterAgent, c8ReaderAgent] emptyCtx) "y" =
      some (.s "missing") ∧
    (executeSequential [c8WriterAgent, c8ReaderAgent] emptyCtx) "y" =
      some (.s "1") ∧
    executeHybrid [c8WriterAgent, c8ReaderAgent] emptyCtx ≠
      executeSequential [c8WriterAgent, c8ReaderAgent] emptyCtx := by
  refine ⟨rfl, rfl, ?_, rfl, rfl, ?_⟩
  · intro h
    have h2 := congrFun h "errors"
    rw [show (executeHybrid [c8FailAgent] c8Ctx) "errors" =
        some (.errList [("boom_agent", "boom")]) from rfl,
      show (executeParallel [c8FailAgent] c8Ctx) "errors" =
        some (.errList [("earlier", "old"), ("boom_agent", "boom")]) from rfl] at h2
    simp at h2
  · intro h
    have h2 := congrFun h "y"
    rw [show (executeHybrid [c8WriterAgent, c8ReaderAgent] emptyCtx) "y" =
        some (.s "missing") from rfl,
      show (executeSequential [c8WriterAgent, c8ReaderAgent] emptyCtx) "y" =
        some (.s "1") from rfl] at h2
    simp at h2
